import Mathlib

/-!
Shallow embedding of the usb-async crate (`src/lib.rs`, `src/linux.rs`).

The OS-level `Context` keeps a table `paths : Vec<Option<PathBuf>>`; a table
index is a device identifier (issued as `Id(len - 1 as u32)` after a push).
The udev world is modelled as a function from syspaths to the device
`device_from_syspath` would return (`none` = the call fails), and a udev
device is a node with an attribute list and an optional parent.  All machine
integers are `Nat`; the `as u32` casts of the source are kept as `% 2^32`.
-/

/-- A udev attribute value slot: the outer `Option` is the result of
`attr.value()`, the inner `Option String` the result of `OsStr::to_str()`
(`none` = the bytes are not valid UTF-8). -/
abbrev AttrValue := Option (Option String)

/-- The attribute list of one sysfs node, as `(name, value slot)` pairs in
iteration order of `dev.attributes()`. -/
abbrev Attrs := List (String × AttrValue)

/-- A udev device together with its ancestor chain: `leaf` has no parent
(`dev.parent()` is `None`), `node` carries a parent device. -/
inductive Device where
  | leaf (attrs : Attrs)
  | node (attrs : Attrs) (parent : Device)
deriving DecidableEq

/-- Own attribute list of a device. -/
def Device.attrs : Device → Attrs
  | .leaf a => a
  | .node a _ => a

/-- The `dev.parent()` accessor. -/
def Device.parent : Device → Option Device
  | .leaf _ => none
  | .node _ p => some p

/-- The `dev.attributes().find(|attr| attr.name() == name)` scan. -/
def attrFind (attrs : Attrs) (name : String) : Option (String × AttrValue) :=
  attrs.find? (fun a => a.1 == name)

/-- The udev `Device::attribute_value(name)` accessor: the value slot of the
device's own attribute of that name (no ancestor walk, no UTF-8 decoding). -/
def Device.attribute_value (d : Device) (name : String) : Option (Option String) :=
  (attrFind d.attrs name).bind (fun a => a.2)

/-- Numeric value of one hex digit, accepting both cases. -/
def hexDigit? (c : Char) : Option Nat :=
  if '0' ≤ c ∧ c ≤ '9' then some (c.toNat - 48)
  else if 'a' ≤ c ∧ c ≤ 'f' then some (c.toNat - 87)
  else if 'A' ≤ c ∧ c ≤ 'F' then some (c.toNat - 55)
  else none

/-- Digit loop of `u16::from_str_radix(s, 16)` for an unsigned positive
parse: each step is a checked `acc * 16 + d` against the `u16` range. -/
def parseHexPos : List Char → Nat → Option Nat
  | [], acc => some acc
  | c :: rest, acc =>
    match hexDigit? c with
    | none => none
    | some d =>
      if acc * 16 + d < 65536 then parseHexPos rest (acc * 16 + d) else none

/-- `u16::from_str_radix(s, 16)` as used by the hex attribute walk: a
leading `+` is stripped and must be followed by at least one digit; the
`-` strip of the core parser is gated on signed targets, so for `u16` a
`-` simply fails as an invalid digit; otherwise the checked digit loop
runs on the whole string, `none` on empty input, any invalid digit, or
range overflow. -/
def u16_from_str_radix16 (s : String) : Option Nat :=
  match s.data with
  | [] => none
  | '+' :: rest => if rest.isEmpty then none else parseHexPos rest 0
  | cs => parseHexPos cs 0

/-- The inner `udev_attribute_walk` of `Context::udev_lookup_hex`: find the
attribute by exact name on the device itself; when found, commit to that
node and decode `value()? .to_str()?` then hex-parse; when absent, recurse
to the parent, and yield `none` at the root. -/
def udev_attribute_walk_hex : Device → String → Option Nat
  | .leaf attrs, name =>
    match attrFind attrs name with
    | some a => (a.2.bind (fun v => v)).bind u16_from_str_radix16
    | none => none
  | .node attrs parent, name =>
    match attrFind attrs name with
    | some a => (a.2.bind (fun v => v)).bind u16_from_str_radix16
    | none => udev_attribute_walk_hex parent name

/-- The inner `udev_attribute_walk` of `Context::udev_lookup_string`: same
walk, but the committed value is only UTF-8 decoded, not parsed. -/
def udev_attribute_walk_string : Device → String → Option String
  | .leaf attrs, name =>
    match attrFind attrs name with
    | some a => a.2.bind (fun v => v)
    | none => none
  | .node attrs parent, name =>
    match attrFind attrs name with
    | some a => a.2.bind (fun v => v)
    | none => udev_attribute_walk_string parent name

/-- The identity table of the OS-level `Context`:
`paths: RefCell<Vec<Option<PathBuf>>>`. -/
abbrev Paths := List (Option String)

/-- The udev backend: what `device_from_syspath` returns for each syspath
(`none` = the call errors, `.ok()` discards the error). -/
abbrev World := String → Option Device

/-- The OS-level error enum `UsbError` (`Io` carries an `io::ErrorKind`,
abstracted to a numeric code). -/
inductive UsbError where
  | InvalidId
  | NotConnected
  | Io (kind : Nat)
deriving DecidableEq

/-- `Context::add_device`: resolve the syspath to a device, require the
device's own `idVendor` attribute value to be present, then push the path
and return the identifier `Id((len - 1) as u32)`, the table length before
the push. -/
def Context.add_device (w : World) (paths : Paths) (path : String) :
    Option Nat × Paths :=
  match w path with
  | none => (none, paths)
  | some dev =>
    match dev.attribute_value "idVendor" with
    | none => (none, paths)
    | some _ => (some (paths.length % 4294967296), paths ++ [some path])

/-- `Context::remove_device_by_path`: find the first entry that is `Some`
and equals the path, set it to `None` and return its index as `Id(i as u32)`;
otherwise return `None` with the table untouched. -/
def Context.remove_device_by_path (paths : Paths) (path : String) :
    Option Nat × Paths :=
  match paths.findIdx? (fun e => e == some path) with
  | some i => (some (i % 4294967296), paths.set i none)
  | none => (none, paths)

/-- `Context::id`: validate an identifier, `InvalidId` when out of range,
`NotConnected` when the entry is tombstoned, otherwise the index. -/
def Context.id (paths : Paths) (i : Nat) : Except UsbError Nat :=
  if h : i < paths.length then
    if (paths.get ⟨i, h⟩).isSome then .ok i else .error .NotConnected
  else .error .InvalidId

/-- `Context::is_connected`. -/
def Context.is_connected (paths : Paths) (i : Nat) : Bool :=
  match Context.id paths i with
  | .ok _ => true
  | .error _ => false

/-- `Context::udev_lookup_string`: validate the identifier, re-open the
stored path (tombstoning the entry and failing with `NotConnected` when the
open fails), run the string attribute walk (tombstoning and failing with
`NotConnected` on a miss), otherwise return the string with the table
untouched.  The inner `none` branch of the path entry is unreachable:
`Context.id` only returns `ok` for a `some` entry. -/
def Context.udev_lookup_string (w : World) (paths : Paths) (i : Nat)
    (attr : String) : Except UsbError String × Paths :=
  match Context.id paths i with
  | .error e => (.error e, paths)
  | .ok idx =>
    match paths.getD idx none with
    | none => (.error .NotConnected, paths)
    | some p =>
      match w p with
      | none => (.error .NotConnected, paths.set idx none)
      | some dev =>
        match udev_attribute_walk_string dev attr with
        | none => (.error .NotConnected, paths.set idx none)
        | some s => (.ok s, paths)

/-- `Context::udev_lookup_hex`: as `udev_lookup_string` with the hex walk. -/
def Context.udev_lookup_hex (w : World) (paths : Paths) (i : Nat)
    (attr : String) : Except UsbError Nat × Paths :=
  match Context.id paths i with
  | .error e => (.error e, paths)
  | .ok idx =>
    match paths.getD idx none with
    | none => (.error .NotConnected, paths)
    | some p =>
      match w p with
      | none => (.error .NotConnected, paths.set idx none)
      | some dev =>
        match udev_attribute_walk_hex dev attr with
        | none => (.error .NotConnected, paths.set idx none)
        | some v => (.ok v, paths)

/-- OS-level `Context::vendor_id`. -/
def Context.vendor_id (w : World) (paths : Paths) (i : Nat) :
    Except UsbError Nat × Paths :=
  Context.udev_lookup_hex w paths i "idVendor"

/-- OS-level `Context::product_id`. -/
def Context.product_id (w : World) (paths : Paths) (i : Nat) :
    Except UsbError Nat × Paths :=
  Context.udev_lookup_hex w paths i "idProduct"

/-- OS-level `Context::manufacturer_string`. -/
def Context.manufacturer_string (w : World) (paths : Paths) (i : Nat) :
    Except UsbError String × Paths :=
  Context.udev_lookup_string w paths i "manufacturer"

/-- OS-level `Context::product_string`. -/
def Context.product_string (w : World) (paths : Paths) (i : Nat) :
    Except UsbError String × Paths :=
  Context.udev_lookup_string w paths i "product"

/-- `Context::devices`: `(0..len).map(|id| Id(id as u32))`. -/
def Context.devices (paths : Paths) : List Nat :=
  (List.range paths.length).map (fun i => i % 4294967296)

/-- The `udev::EventType` of a raw monitor event. -/
inductive RawType where
  | add
  | remove
  | change
  | unknown
deriving DecidableEq

/-- One raw event read from the monitor socket: the device syspath and the
event type. -/
structure RawEvent where
  path : String
  type : RawType
deriving DecidableEq

/-- The OS-level `Event` enum of `linux.rs`. -/
inductive OsEvent where
  | Add (id : Nat)
  | Remove (id : Nat)
  | Change (id : Nat)
  | Unknown
deriving DecidableEq

/-- The `Async` readiness wrapper of the futures 0.1 API. -/
inductive Async (α : Type) where
  | Ready (val : α)
  | NotReady
deriving DecidableEq

/-- One `Monitor::poll` step of `linux.rs`.  The I/O environment of the step
is passed in: `regErr` is the error kind when socket registration or the
readiness query fails, `readiness` the reactor's answer (with the readable
bit), and `ev` the raw event the socket yields when read.  Returns the poll
outcome and the table after the step. -/
def Monitor.poll (w : World) (paths : Paths) (regErr : Option Nat)
    (readiness : Async Bool) (ev : Option RawEvent) :
    Except UsbError (Async (Option OsEvent)) × Paths :=
  match regErr with
  | some k => (.error (.Io k), paths)
  | none =>
    match readiness with
    | .NotReady => (.ok .NotReady, paths)
    | .Ready readable =>
      if readable then
        match ev with
        | none => (.ok .NotReady, paths)
        | some ev =>
          match ev.type with
          | .add =>
            match Context.add_device w paths ev.path with
            | (some id, ps) => (.ok (.Ready (some (.Add id))), ps)
            | (none, ps) => (.ok .NotReady, ps)
          | .remove =>
            match Context.remove_device_by_path paths ev.path with
            | (some id, ps) => (.ok (.Ready (some (.Remove id))), ps)
            | (none, ps) => (.ok .NotReady, ps)
          | .change => (.ok .NotReady, paths)
          | .unknown => (.ok .NotReady, paths)
      else (.ok .NotReady, paths)

/-- The public `Event` enum of `lib.rs`. -/
inductive FEvent where
  | Add (id : Nat)
  | Remove (id : Nat)
deriving DecidableEq

/-- The public `Error` enum of `lib.rs`. -/
inductive FError where
  | InvalidId
  | NotConnected
  | Io (kind : Nat)
deriving DecidableEq

/-- `From<os::UsbError> for Error`. -/
def FError.ofUsb : UsbError → FError
  | .InvalidId => .InvalidId
  | .NotConnected => .NotConnected
  | .Io k => .Io k

/-- `TryFrom<os::Event> for Event`: `Change` and `Unknown` are refused. -/
def FEvent.tryFrom : OsEvent → Except Unit FEvent
  | .Add i => .ok (.Add i)
  | .Remove i => .ok (.Remove i)
  | .Change _ => .error ()
  | .Unknown => .error ()

/-- The cached per-identifier metadata of the public facade. -/
structure Metadata where
  vendor_id : Option Nat
  product_id : Option Nat
deriving DecidableEq

/-- The state of the public `Context` of `lib.rs`: the OS-level table plus
the metadata cache. -/
structure FacadeContext where
  paths : Paths
  metadata : List Metadata
deriving DecidableEq

/-- The private `Context::add` of `lib.rs`: query the OS-level `vendor_id`
and `product_id` live (each may mutate the table), keep them as `Option`s,
and push one metadata entry. -/
def FacadeContext.add (w : World) (st : FacadeContext) (i : Nat) :
    FacadeContext :=
  let rv := Context.vendor_id w st.paths i
  let rp := Context.product_id w rv.2 i
  { paths := rp.2,
    metadata := st.metadata ++
      [{ vendor_id := rv.1.toOption, product_id := rp.1.toOption }] }

/-- The startup scan of the OS-level `Context::new`: call `add_device` on
each enumerated syspath, discarding the results, starting from an empty
table. -/
def osContextNew (w : World) (scan : List String) : Paths :=
  scan.foldl (fun ps p => (Context.add_device w ps p).2) []

/-- The public `Context::new` of `lib.rs`: build the OS context by the
startup scan, then call `add` for every identifier of `devices()`. -/
def FacadeContext.new (w : World) (scan : List String) : FacadeContext :=
  let ps := osContextNew w scan
  (Context.devices ps).foldl (fun st i => FacadeContext.add w st i)
    { paths := ps, metadata := [] }

/-- The public `Context::vendor_id`: a direct index into the metadata
cache.  The outer `none` models the index-out-of-bounds panic of
`self.metadata.borrow()[id]` — the source returns a plain `Option<u16>`
with no error variant. -/
def FacadeContext.vendor_id (st : FacadeContext) (i : Nat) :
    Option (Option Nat) :=
  (st.metadata.get? i).map (fun m => m.vendor_id)

/-- The public `Context::product_id`, same shape as `vendor_id`. -/
def FacadeContext.product_id (st : FacadeContext) (i : Nat) :
    Option (Option Nat) :=
  (st.metadata.get? i).map (fun m => m.product_id)

/-- One `HotplugMonitor::poll` step of `lib.rs`: delegate to the OS-level
poll, translate the event, and on `Add` also push a metadata entry via
`Context::add`. -/
def HotplugMonitor.poll (w : World) (st : FacadeContext) (regErr : Option Nat)
    (readiness : Async Bool) (ev : Option RawEvent) :
    Except FError (Async (Option FEvent)) × FacadeContext :=
  match Monitor.poll w st.paths regErr readiness ev with
  | (.error e, ps) => (.error (FError.ofUsb e), { st with paths := ps })
  | (.ok .NotReady, ps) => (.ok .NotReady, { st with paths := ps })
  | (.ok (.Ready none), ps) => (.ok (.Ready none), { st with paths := ps })
  | (.ok (.Ready (some osEv)), ps) =>
    match FEvent.tryFrom osEv with
    | .error _ => (.ok .NotReady, { st with paths := ps })
    | .ok (.Add i) =>
      (.ok (.Ready (some (.Add i))), FacadeContext.add w { st with paths := ps } i)
    | .ok (.Remove i) => (.ok (.Ready (some (.Remove i))), { st with paths := ps })

/-- Out-of-range identifiers are refused by `Context::id`. -/
theorem Context.id_invalid (paths : Paths) (i : Nat) (h : paths.length ≤ i) :
    Context.id paths i = .error .InvalidId := by
  unfold Context.id
  rw [dif_neg (by omega)]

/-- Tombstoned identifiers are refused by `Context::id`. -/
theorem Context.id_notConnected (paths : Paths) (i : Nat) (h : i < paths.length)
    (hn : paths.get ⟨i, h⟩ = none) :
    Context.id paths i = .error .NotConnected := by
  unfold Context.id
  rw [dif_pos h, hn]
  rfl

/-- Connected identifiers pass `Context::id` unchanged. -/
theorem Context.id_connected (paths : Paths) (i : Nat) (p : String)
    (h : i < paths.length) (hp : paths.get ⟨i, h⟩ = some p) :
    Context.id paths i = .ok i := by
  unfold Context.id
  rw [dif_pos h, hp]
  rfl

/-- An in-range table read through `getD` agrees with `get`. -/
theorem paths_getD_eq (paths : Paths) (i : Nat) (h : i < paths.length) :
    paths.getD i none = paths.get ⟨i, h⟩ := by
  rw [List.getD_eq_getElem?_getD, List.getElem?_eq_getElem h]
  rfl

/-- `udev_lookup_string` on an out-of-range identifier: `InvalidId`, table
untouched. -/
theorem udev_lookup_string_invalid (w : World) (paths : Paths) (i : Nat)
    (attr : String) (h : paths.length ≤ i) :
    Context.udev_lookup_string w paths i attr = (.error .InvalidId, paths) := by
  unfold Context.udev_lookup_string
  rw [Context.id_invalid paths i h]

/-- `udev_lookup_string` on a tombstoned identifier: `NotConnected`, table
untouched. -/
theorem udev_lookup_string_tombstoned (w : World) (paths : Paths) (i : Nat)
    (attr : String) (h : i < paths.length) (hn : paths.get ⟨i, h⟩ = none) :
    Context.udev_lookup_string w paths i attr = (.error .NotConnected, paths) := by
  unfold Context.udev_lookup_string
  rw [Context.id_notConnected paths i h hn]

/-- `udev_lookup_string` when the stored path no longer opens: the entry is
tombstoned and `NotConnected` returned. -/
theorem udev_lookup_string_open_fail (w : World) (paths : Paths) (i : Nat)
    (attr : String) (p : String) (h : i < paths.length)
    (hp : paths.get ⟨i, h⟩ = some p) (hw : w p = none) :
    Context.udev_lookup_string w paths i attr =
      (.error .NotConnected, paths.set i none) := by
  unfold Context.udev_lookup_string
  rw [Context.id_connected paths i p h hp]
  simp only [paths_getD_eq paths i h, hp, hw]

/-- `udev_lookup_string` when the device opens but the walk misses: the
entry is tombstoned and `NotConnected` returned. -/
theorem udev_lookup_string_walk_fail (w : World) (paths : Paths) (i : Nat)
    (attr : String) (p : String) (dev : Device) (h : i < paths.length)
    (hp : paths.get ⟨i, h⟩ = some p) (hw : w p = some dev)
    (hwalk : udev_attribute_walk_string dev attr = none) :
    Context.udev_lookup_string w paths i attr =
      (.error .NotConnected, paths.set i none) := by
  unfold Context.udev_lookup_string
  rw [Context.id_connected paths i p h hp]
  simp only [paths_getD_eq paths i h, hp, hw, hwalk]

/-- `udev_lookup_string` when the walk hits: the string is returned and the
table untouched. -/
theorem udev_lookup_string_ok (w : World) (paths : Paths) (i : Nat)
    (attr : String) (p : String) (dev : Device) (s : String)
    (h : i < paths.length) (hp : paths.get ⟨i, h⟩ = some p)
    (hw : w p = some dev)
    (hwalk : udev_attribute_walk_string dev attr = some s) :
    Context.udev_lookup_string w paths i attr = (.ok s, paths) := by
  unfold Context.udev_lookup_string
  rw [Context.id_connected paths i p h hp]
  simp only [paths_getD_eq paths i h, hp, hw, hwalk]

/-- `udev_lookup_hex` on an out-of-range identifier. -/
theorem udev_lookup_hex_invalid (w : World) (paths : Paths) (i : Nat)
    (attr : String) (h : paths.length ≤ i) :
    Context.udev_lookup_hex w paths i attr = (.error .InvalidId, paths) := by
  unfold Context.udev_lookup_hex
  rw [Context.id_invalid paths i h]

/-- `udev_lookup_hex` on a tombstoned identifier. -/
theorem udev_lookup_hex_tombstoned (w : World) (paths : Paths) (i : Nat)
    (attr : String) (h : i < paths.length) (hn : paths.get ⟨i, h⟩ = none) :
    Context.udev_lookup_hex w paths i attr = (.error .NotConnected, paths) := by
  unfold Context.udev_lookup_hex
  rw [Context.id_notConnected paths i h hn]

/-- `udev_lookup_hex` when the stored path no longer opens. -/
theorem udev_lookup_hex_open_fail (w : World) (paths : Paths) (i : Nat)
    (attr : String) (p : String) (h : i < paths.length)
    (hp : paths.get ⟨i, h⟩ = some p) (hw : w p = none) :
    Context.udev_lookup_hex w paths i attr =
      (.error .NotConnected, paths.set i none) := by
  unfold Context.udev_lookup_hex
  rw [Context.id_connected paths i p h hp]
  simp only [paths_getD_eq paths i h, hp, hw]

/-- `udev_lookup_hex` when the device opens but the walk misses. -/
theorem udev_lookup_hex_walk_fail (w : World) (paths : Paths) (i : Nat)
    (attr : String) (p : String) (dev : Device) (h : i < paths.length)
    (hp : paths.get ⟨i, h⟩ = some p) (hw : w p = some dev)
    (hwalk : udev_attribute_walk_hex dev attr = none) :
    Context.udev_lookup_hex w paths i attr =
      (.error .NotConnected, paths.set i none) := by
  unfold Context.udev_lookup_hex
  rw [Context.id_connected paths i p h hp]
  simp only [paths_getD_eq paths i h, hp, hw, hwalk]

/-- `udev_lookup_hex` when the walk hits. -/
theorem udev_lookup_hex_ok (w : World) (paths : Paths) (i : Nat)
    (attr : String) (p : String) (dev : Device) (v : Nat)
    (h : i < paths.length) (hp : paths.get ⟨i, h⟩ = some p)
    (hw : w p = some dev)
    (hwalk : udev_attribute_walk_hex dev attr = some v) :
    Context.udev_lookup_hex w paths i attr = (.ok v, paths) := by
  unfold Context.udev_lookup_hex
  rw [Context.id_connected paths i p h hp]
  simp only [paths_getD_eq paths i h, hp, hw, hwalk]

/-- The table after a `udev_lookup_string` step: either untouched, or one
connected entry set to `none`. -/
theorem udev_lookup_string_state (w : World) (paths : Paths) (i : Nat)
    (attr : String) :
    (Context.udev_lookup_string w paths i attr).2 = paths ∨
    ∃ (h : i < paths.length) (p : String), paths.get ⟨i, h⟩ = some p ∧
      (Context.udev_lookup_string w paths i attr).2 = paths.set i none := by
  by_cases h : i < paths.length
  · cases hp : paths.get ⟨i, h⟩ with
    | none => left; rw [udev_lookup_string_tombstoned w paths i attr h hp]
    | some p =>
      cases hw : w p with
      | none =>
        right
        exact ⟨h, p, hp, by rw [udev_lookup_string_open_fail w paths i attr p h hp hw]⟩
      | some dev =>
        cases hwalk : udev_attribute_walk_string dev attr with
        | none =>
          right
          exact ⟨h, p, hp,
            by rw [udev_lookup_string_walk_fail w paths i attr p dev h hp hw hwalk]⟩
        | some s => left; rw [udev_lookup_string_ok w paths i attr p dev s h hp hw hwalk]
  · left
    rw [udev_lookup_string_invalid w paths i attr (by omega)]

/-- The table after a `udev_lookup_hex` step: either untouched, or one
connected entry set to `none`. -/
theorem udev_lookup_hex_state (w : World) (paths : Paths) (i : Nat)
    (attr : String) :
    (Context.udev_lookup_hex w paths i attr).2 = paths ∨
    ∃ (h : i < paths.length) (p : String), paths.get ⟨i, h⟩ = some p ∧
      (Context.udev_lookup_hex w paths i attr).2 = paths.set i none := by
  by_cases h : i < paths.length
  · cases hp : paths.get ⟨i, h⟩ with
    | none => left; rw [udev_lookup_hex_tombstoned w paths i attr h hp]
    | some p =>
      cases hw : w p with
      | none =>
        right
        exact ⟨h, p, hp, by rw [udev_lookup_hex_open_fail w paths i attr p h hp hw]⟩
      | some dev =>
        cases hwalk : udev_attribute_walk_hex dev attr with
        | none =>
          right
          exact ⟨h, p, hp,
            by rw [udev_lookup_hex_walk_fail w paths i attr p dev h hp hw hwalk]⟩
        | some v => left; rw [udev_lookup_hex_ok w paths i attr p dev v h hp hw hwalk]
  · left
    rw [udev_lookup_hex_invalid w paths i attr (by omega)]

/-- One table transition respects the registry discipline: the length never
shrinks and every pre-existing entry is either untouched or goes from a
connected `some` locator to `none`. -/
def tableStep (old new : Paths) : Prop :=
  old.length ≤ new.length ∧
  ∀ i, i < old.length →
    new[i]? = old[i]? ∨ ((∃ p, old[i]? = some (some p)) ∧ new[i]? = some none)

/-- A table steps to itself. -/
theorem tableStep_refl (l : Paths) : tableStep l l :=
  ⟨Nat.le_refl _, fun _ _ => Or.inl rfl⟩

/-- Appending entries is a table step. -/
theorem tableStep_append (l l2 : Paths) : tableStep l (l ++ l2) := by
  refine ⟨by simp, fun i hi => Or.inl ?_⟩
  exact List.getElem?_append_left hi

/-- Tombstoning one connected entry is a table step. -/
theorem tableStep_set_none (l : Paths) (i : Nat) (p : String)
    (h : i < l.length) (hp : l.get ⟨i, h⟩ = some p) :
    tableStep l (l.set i none) := by
  rw [List.get_eq_getElem] at hp
  refine ⟨by rw [List.length_set], fun j hj => ?_⟩
  rcases eq_or_ne i j with rfl | hne
  · right
    refine ⟨⟨p, ?_⟩, ?_⟩
    · rw [List.getElem?_eq_getElem h, hp]
    · simp [List.getElem?_set_self, h]
  · left
    exact List.getElem?_set_ne hne

/-- Claim C2: every table-touching operation of the OS-level `Context`
(`add_device`, `remove_device_by_path`, and the two live lookups) is a
`tableStep` — the length never decreases and a locator only ever moves from
`Some` to `None` — and `devices()` is exactly the identifier range
`0 .. len-1` in increasing issuance order (for any table the `u32`
identifier space can address). -/
theorem context_table_invariants (w : World) (paths : Paths) (path : String)
    (i : Nat) (attr : String) :
    tableStep paths (Context.add_device w paths path).2 ∧
    tableStep paths (Context.remove_device_by_path paths path).2 ∧
    tableStep paths (Context.udev_lookup_string w paths i attr).2 ∧
    tableStep paths (Context.udev_lookup_hex w paths i attr).2 ∧
    (paths.length ≤ 4294967296 → Context.devices paths = List.range paths.length) := by
  refine ⟨?_, ?_, ?_, ?_, ?_⟩
  · unfold Context.add_device
    split
    · exact tableStep_refl paths
    · split
      · exact tableStep_refl paths
      · exact tableStep_append paths [some path]
  · unfold Context.remove_device_by_path
    cases hf : paths.findIdx? (fun e => e == some path) with
    | none => exact tableStep_refl paths
    | some j =>
      obtain ⟨hj, hpred, -⟩ := List.findIdx?_eq_some_iff_getElem.mp hf
      have hpj : paths.get ⟨j, hj⟩ = some path := by
        rw [List.get_eq_getElem]
        exact eq_of_beq hpred
      exact tableStep_set_none paths j path hj hpj
  · rcases udev_lookup_string_state w paths i attr with hs | ⟨h, p, hp, hs⟩
    · rw [hs]; exact tableStep_refl paths
    · rw [hs]; exact tableStep_set_none paths i p h hp
  · rcases udev_lookup_hex_state w paths i attr with hs | ⟨h, p, hp, hs⟩
    · rw [hs]; exact tableStep_refl paths
    · rw [hs]; exact tableStep_set_none paths i p h hp
  · intro hlen
    unfold Context.devices
    have hcongr : ∀ a ∈ List.range paths.length, a % 4294967296 = a := by
      intro a ha
      have : a < paths.length := List.mem_range.mp ha
      exact Nat.mod_eq_of_lt (by omega)
    simp only [List.map_congr_left hcongr, List.map_id_fun]
    simp

/-- Closed instance of `context_table_invariants`: `devices()` on a
one-entry table is `[0]`. -/
theorem context_table_invariants_witness :
    Context.devices [some "p"] = List.range (List.length [some "p"]) :=
  (context_table_invariants (fun _ => none) [some "p"] "q" 0 "m").2.2.2.2 (by decide)

/-- Claim C1: `add_device` returns `none` and leaves the table unchanged
when the locator does not resolve to a live device or the device lacks an
`idVendor` attribute value; otherwise it appends exactly one connected
entry and returns the table length before the call, so identifiers are
issued densely from 0 in table-append order (for any table the `u32`
identifier space can address). -/
theorem add_device_spec (w : World) (paths : Paths) (path : String)
    (hlen : paths.length < 4294967296) :
    (w path = none → Context.add_device w paths path = (none, paths)) ∧
    (∀ dev, w path = some dev → dev.attribute_value "idVendor" = none →
      Context.add_device w paths path = (none, paths)) ∧
    (∀ dev, w path = some dev → (dev.attribute_value "idVendor").isSome →
      Context.add_device w paths path = (some paths.length, paths ++ [some path])) := by
  refine ⟨?_, ?_, ?_⟩
  · intro hw
    unfold Context.add_device
    rw [hw]
  · intro dev hw hv
    unfold Context.add_device
    rw [hw]
    dsimp only
    rw [hv]
  · intro dev hw hv
    obtain ⟨v, hv⟩ := Option.isSome_iff_exists.mp hv
    unfold Context.add_device
    rw [hw]
    dsimp only
    rw [hv]
    dsimp only
    rw [Nat.mod_eq_of_lt hlen]

/-- A concrete root-hub-like device: carries `idVendor` itself. -/
def devHub : Device := Device.leaf [("idVendor", some (some "1d6b"))]

/-- A concrete one-device udev world: only the syspath `p` resolves. -/
def w1 : World := fun p => if p == "p" then some devHub else none

/-- Closed instance of `add_device_spec`: adding a resolvable device with an
`idVendor` attribute to the empty table issues identifier 0. -/
theorem add_device_spec_witness :
    Context.add_device w1 [] "p" = (some (List.length ([] : Paths)), [] ++ [some "p"]) :=
  (add_device_spec w1 [] "p" (by decide)).2.2 devHub (by decide) (by decide)

/-- Claim C3 counterexample: with two connected entries holding the same
locator, removing that locator twice yields `some 0` and then `some 1` —
not `none` — so the twice-removal clause fails on tables with duplicate
connected locators. -/
theorem remove_twice_counterexample :
    (Context.remove_device_by_path [some "p", some "p"] "p").1 = some 0 ∧
    (Context.remove_device_by_path
      (Context.remove_device_by_path [some "p", some "p"] "p").2 "p").1 = some 1 := by
  decide

/-- Tombstoning an entry that holds `some p` decrements the count of that
locator by one. -/
theorem count_set_none (l : Paths) (i : Nat) (p : String)
    (h : i < l.length) (hp : l.get ⟨i, h⟩ = some p) :
    (l.set i none).count (some p) = l.count (some p) - 1 := by
  induction l generalizing i with
  | nil => simp at h
  | cons x xs ih =>
    cases i with
    | zero =>
      simp only [List.get] at hp
      subst hp
      simp [List.count_cons]
    | succ i =>
      have hi : i < xs.length := by simpa using h
      have hp2 : xs.get ⟨i, hi⟩ = some p := hp
      have hmem : some p ∈ xs := by
        rw [← hp2]
        exact xs.get_mem _ _
      have hpos : 0 < xs.count (some p) := List.count_pos_iff.mpr hmem
      simp only [List.set_cons_succ, List.count_cons, ih i hi hp2]
      omega

/-- Claim C3 (amended): `remove_device_by_path` tombstones the first
connected entry whose locator equals the argument and returns its
identifier; when no connected entry matches it returns `none` and leaves
the table unchanged; and — provided the table holds at most one entry with
that locator — removing the same connected locator twice yields `some id`
then `none`. -/
theorem remove_device_spec (paths : Paths) (p : String) :
    ((∀ e ∈ paths, e ≠ some p) →
      Context.remove_device_by_path paths p = (none, paths)) ∧
    (∀ i, ∀ h : i < paths.length, paths.get ⟨i, h⟩ = some p →
      (∀ j, j < i → paths[j]? ≠ some (some p)) →
      Context.remove_device_by_path paths p =
        (some (i % 4294967296), paths.set i none)) ∧
    (paths.count (some p) = 1 →
      (Context.remove_device_by_path paths p).1.isSome ∧
      (Context.remove_device_by_path
        (Context.remove_device_by_path paths p).2 p).1 = none) := by
  have hnone : ∀ l : Paths, (∀ e ∈ l, e ≠ some p) →
      Context.remove_device_by_path l p = (none, l) := by
    intro l hl
    unfold Context.remove_device_by_path
    rw [List.findIdx?_eq_none_iff.mpr (fun e he => beq_eq_false_iff_ne.mpr (hl e he))]
  refine ⟨hnone paths, ?_, ?_⟩
  · intro i h hp hfirst
    have hfind : paths.findIdx? (fun e => e == some p) = some i := by
      refine List.findIdx?_eq_some_iff_getElem.mpr ⟨h, ?_, ?_⟩
      · rw [List.get_eq_getElem] at hp
        exact beq_iff_eq.mpr hp
      · intro j hj
        have : paths[j]? ≠ some (some p) := hfirst j hj
        have hjl : j < paths.length := by omega
        rw [List.getElem?_eq_getElem hjl] at this
        simp only [ne_eq, Option.some_inj] at this
        simpa using this
    unfold Context.remove_device_by_path
    rw [hfind]
  · intro hcount
    have hmem : some p ∈ paths := by
      have : 0 < paths.count (some p) := by omega
      exact List.count_pos_iff.mp this
    cases hfind : paths.findIdx? (fun e => e == some p) with
    | none =>
      exfalso
      have := List.findIdx?_eq_none_iff.mp hfind (some p) hmem
      simp at this
    | some j =>
      obtain ⟨hj, hpred, -⟩ := List.findIdx?_eq_some_iff_getElem.mp hfind
      have hpj : paths.get ⟨j, hj⟩ = some p := by
        rw [List.get_eq_getElem]
        exact eq_of_beq hpred
      have hstate : Context.remove_device_by_path paths p =
          (some (j % 4294967296), paths.set j none) := by
        unfold Context.remove_device_by_path
        rw [hfind]
      have hzero : (paths.set j none).count (some p) = 0 := by
        rw [count_set_none paths j p hj hpj, hcount]
      have hnomem : ∀ e ∈ paths.set j none, e ≠ some p := by
        intro e he heq
        subst heq
        have := List.count_pos_iff.mpr he
        omega
      constructor
      · rw [hstate]
        rfl
      · rw [hstate]
        dsimp only
        rw [hnone (paths.set j none) hnomem]

/-- Closed instance of `remove_device_spec`: removing the single connected
locator of a one-entry table twice yields a hit and then `none`. -/
theorem remove_device_spec_witness :
    (Context.remove_device_by_path [some "p"] "p").1.isSome ∧
    (Context.remove_device_by_path
      (Context.remove_device_by_path [some "p"] "p").2 "p").1 = none :=
  (remove_device_spec [some "p"] "p").2.2 (by decide)

/-- The attribute lists along a device's ancestor chain, the device itself
first, the root last. -/
def Device.chain : Device → List Attrs
  | .leaf a => [a]
  | .node a p => a :: p.chain

/-- Specification-side description of the walk: the value slot found by
exact name match on the nearest chain node (the device itself or the
closest ancestor) that carries the attribute; `none` when no node on the
chain carries it. -/
def nearestCarrierValue (d : Device) (name : String) : Option AttrValue :=
  ((d.chain.find? (fun attrs => (attrFind attrs name).isSome)).bind
    (fun attrs => attrFind attrs name)).map (fun a => a.2)

/-- The hex walk is the string walk followed by the hex parse. -/
theorem walk_hex_eq_walk_string (d : Device) (name : String) :
    udev_attribute_walk_hex d name =
      (udev_attribute_walk_string d name).bind u16_from_str_radix16 := by
  induction d with
  | leaf attrs =>
    unfold udev_attribute_walk_hex udev_attribute_walk_string
    cases hf : attrFind attrs name with
    | none => rfl
    | some a => rfl
  | node attrs parent ih =>
    unfold udev_attribute_walk_hex udev_attribute_walk_string
    cases hf : attrFind attrs name with
    | none => exact ih
    | some a => rfl

/-- A 5-deep device chain whose root alone carries the attribute `x`. -/
def chain5 : Device :=
  Device.node [] (Device.node [] (Device.node [] (Device.node []
    (Device.leaf [("x", some (some "rootval"))]))))

/-- Claim C4: each attribute walk returns the decoded value slot of the
exact name match on the nearest ancestor-chain node carrying the attribute
(the hex walk additionally hex-parses it), returns `none` when no node on
the entire chain carries it, and in particular resolves an attribute
present only on the root of a 5-deep chain. -/
theorem attribute_walk_nearest (d : Device) (name : String) :
    (udev_attribute_walk_string d name =
      (nearestCarrierValue d name).bind (fun v => v.bind (fun s => s))) ∧
    (udev_attribute_walk_hex d name =
      ((nearestCarrierValue d name).bind (fun v => v.bind (fun s => s))).bind
        u16_from_str_radix16) ∧
    ((∀ attrs ∈ d.chain, attrFind attrs name = none) →
      udev_attribute_walk_string d name = none ∧
      udev_attribute_walk_hex d name = none) ∧
    (udev_attribute_walk_string chain5 "x" = some "rootval" ∧
      udev_attribute_walk_string chain5 "y" = none) := by
  have hstring : ∀ d : Device, udev_attribute_walk_string d name =
      (nearestCarrierValue d name).bind (fun v => v.bind (fun s => s)) := by
    intro d
    induction d with
    | leaf attrs =>
      unfold udev_attribute_walk_string nearestCarrierValue Device.chain
      cases hf : attrFind attrs name with
      | none => simp [List.find?, hf]
      | some a => simp [List.find?, hf]
    | node attrs parent ih =>
      unfold udev_attribute_walk_string nearestCarrierValue Device.chain
      cases hf : attrFind attrs name with
      | none =>
        rw [List.find?_cons_of_neg _ (by simp [hf])]
        exact ih
      | some a => simp [List.find?, hf]
  have hhex : ∀ d : Device, udev_attribute_walk_hex d name =
      ((nearestCarrierValue d name).bind (fun v => v.bind (fun s => s))).bind
        u16_from_str_radix16 := by
    intro d
    rw [walk_hex_eq_walk_string, hstring d]
  refine ⟨hstring d, hhex d, ?_, by decide⟩
  intro hall
  have hnone : nearestCarrierValue d name = none := by
    unfold nearestCarrierValue
    have hfind : d.chain.find? (fun attrs => (attrFind attrs name).isSome) = none := by
      rw [List.find?_eq_none]
      intro attrs hmem
      simp [hall attrs hmem]
    rw [hfind]
    rfl
  rw [hstring d, hhex d, hnone]
  exact ⟨rfl, rfl⟩

/-- Closed instance of `attribute_walk_nearest`: both walks miss on a
device with an empty attribute set and no parent. -/
theorem attribute_walk_nearest_witness :
    udev_attribute_walk_string (Device.leaf []) "x" = none ∧
    udev_attribute_walk_hex (Device.leaf []) "x" = none :=
  (attribute_walk_nearest (Device.leaf []) "x").2.2.1 (by decide)

/-- Claim C5: the live string lookups `manufacturer_string` and
`product_string` fail with `InvalidId` when the identifier is at or beyond
the table length, and with `NotConnected` when it is in range but the
entry's locator is `None` (the table is untouched in both cases). -/
theorem string_lookup_errors (w : World) (paths : Paths) (i : Nat) :
    (paths.length ≤ i →
      Context.manufacturer_string w paths i = (.error .InvalidId, paths) ∧
      Context.product_string w paths i = (.error .InvalidId, paths)) ∧
    (∀ h : i < paths.length, paths.get ⟨i, h⟩ = none →
      Context.manufacturer_string w paths i = (.error .NotConnected, paths) ∧
      Context.product_string w paths i = (.error .NotConnected, paths)) := by
  constructor
  · intro h
    exact ⟨udev_lookup_string_invalid w paths i "manufacturer" h,
      udev_lookup_string_invalid w paths i "product" h⟩
  · intro h hn
    exact ⟨udev_lookup_string_tombstoned w paths i "manufacturer" h hn,
      udev_lookup_string_tombstoned w paths i "product" h hn⟩

/-- Closed instance of `string_lookup_errors`: both string lookups refuse
identifier 0 on the empty table with `InvalidId`. -/
theorem string_lookup_errors_witness :
    Context.manufacturer_string w1 [] 0 = (.error .InvalidId, []) ∧
    Context.product_string w1 [] 0 = (.error .InvalidId, []) :=
  (string_lookup_errors w1 [] 0).1 (by decide)

/-- Claim C6 counterexample world: syspath `d` opens to a live device that
carries `idVendor` but no `manufacturer` attribute anywhere on its chain. -/
def w6 : World := fun p => if p == "d" then some devHub else none

/-- Claim C6 counterexample: the locator still opens — `w6` resolves it —
yet `manufacturer_string` tombstones the entry and returns `NotConnected`,
because the attribute walk misses on the live device; so the tombstoning is
not limited to devices that disconnected or stopped opening. -/
theorem string_lookup_tombstone_counterexample :
    (w6 "d").isSome = true ∧
    Context.manufacturer_string w6 [some "d"] 0 =
      (.error .NotConnected, [none]) := by
  exact ⟨rfl, rfl⟩

/-- Claim C6 (amended): for a connected identifier, a live string lookup
tombstones the entry and returns `NotConnected` exactly when the locator no
longer opens or the attribute walk finds no value on the opened device; on
a successful lookup the table, hence the entry's connectivity, is
unchanged. -/
theorem string_lookup_staleness (w : World) (paths : Paths) (i : Nat)
    (p : String) (attr : String) (h : i < paths.length)
    (hp : paths.get ⟨i, h⟩ = some p) :
    (w p = none →
      Context.udev_lookup_string w paths i attr =
        (.error .NotConnected, paths.set i none)) ∧
    (∀ dev, w p = some dev → udev_attribute_walk_string dev attr = none →
      Context.udev_lookup_string w paths i attr =
        (.error .NotConnected, paths.set i none)) ∧
    (∀ dev s, w p = some dev → udev_attribute_walk_string dev attr = some s →
      Context.udev_lookup_string w paths i attr = (.ok s, paths)) :=
  ⟨fun hw => udev_lookup_string_open_fail w paths i attr p h hp hw,
   fun dev hw hwalk => udev_lookup_string_walk_fail w paths i attr p dev h hp hw hwalk,
   fun dev s hw hwalk => udev_lookup_string_ok w paths i attr p dev s h hp hw hwalk⟩

/-- A device chain carrying the vendor and product ids and both strings on
the parent node, as a composite device's interface would see them. -/
def devFull : Device :=
  Device.node [] (Device.leaf [("idVendor", some (some "1d6b")),
    ("idProduct", some (some "0002")), ("manufacturer", some (some "Acme")),
    ("product", some (some "Widget"))])

/-- A one-device world for `devFull` behind syspath `d`. -/
def w2 : World := fun p => if p == "d" then some devFull else none

/-- Closed instance of `string_lookup_staleness`: a successful lookup
returns the string and leaves the table untouched. -/
theorem string_lookup_staleness_witness :
    Context.udev_lookup_string w2 [some "d"] 0 "manufacturer" =
      (.ok "Acme", [some "d"]) :=
  (string_lookup_staleness w2 [some "d"] 0 "d" "manufacturer" (by decide)
    (by decide)).2.2 devFull "Acme" (by decide) (by decide)

/-- Claim C7 counterexample: on a facade context with an empty metadata
table, `vendor_id 0` hits the index-out-of-bounds panic branch (the
model's outer `none`); the source signature `Option<u16>` has no error
variant, so no `InvalidId` is ever produced. -/
theorem facade_vendor_id_counterexample :
    FacadeContext.vendor_id { paths := [], metadata := [] } 0 = none := rfl

/-- Claim C7 (amended): the public `vendor_id` / `product_id` return the
metadata cached at add-time — the definitions take no udev world, so no OS
re-query occurs — and an out-of-range identifier hits the
index-out-of-bounds panic of the direct vector indexing (modelled as
`none`), not an `InvalidId` error. -/
theorem facade_metadata_cached (st : FacadeContext) (i : Nat) :
    (∀ h : i < st.metadata.length,
      FacadeContext.vendor_id st i = some (st.metadata.get ⟨i, h⟩).vendor_id ∧
      FacadeContext.product_id st i = some (st.metadata.get ⟨i, h⟩).product_id) ∧
    (st.metadata.length ≤ i →
      FacadeContext.vendor_id st i = none ∧
      FacadeContext.product_id st i = none) := by
  constructor
  · intro h
    unfold FacadeContext.vendor_id FacadeContext.product_id
    rw [List.get?_eq_get h]
    exact ⟨rfl, rfl⟩
  · intro h
    unfold FacadeContext.vendor_id FacadeContext.product_id
    rw [List.get?_eq_none.mpr h]
    exact ⟨rfl, rfl⟩

/-- Closed instance of `facade_metadata_cached`: both cached lookups hit
the panic branch for an identifier past the metadata table. -/
theorem facade_metadata_cached_witness :
    FacadeContext.vendor_id { paths := [], metadata := [] } 1 = none ∧
    FacadeContext.product_id { paths := [], metadata := [] } 1 = none :=
  (facade_metadata_cached { paths := [], metadata := [] } 1).2 (by decide)

/-- `add_device` either rejects (table untouched) or appends one connected
entry. -/
theorem add_device_cases (w : World) (paths : Paths) (path : String) :
    Context.add_device w paths path = (none, paths) ∨
    Context.add_device w paths path =
      (some (paths.length % 4294967296), paths ++ [some path]) := by
  unfold Context.add_device
  split
  · exact Or.inl rfl
  · split
    · exact Or.inl rfl
    · exact Or.inr rfl

/-- `remove_device_by_path` either misses (table untouched) or tombstones
one entry. -/
theorem remove_device_cases (paths : Paths) (path : String) :
    Context.remove_device_by_path paths path = (none, paths) ∨
    ∃ i, Context.remove_device_by_path paths path =
      (some (i % 4294967296), paths.set i none) := by
  unfold Context.remove_device_by_path
  cases hf : paths.findIdx? (fun e => e == some path) with
  | none => exact Or.inl rfl
  | some i => exact Or.inr ⟨i, rfl⟩

/-- A raw `Add` whose locator `add_device` rejects is suppressed by the
OS-level poll: not-ready, table untouched. -/
theorem monitor_poll_suppress_add (w : World) (paths : Paths) (ev : RawEvent)
    (ht : ev.type = RawType.add)
    (hfail : (Context.add_device w paths ev.path).1 = none) :
    Monitor.poll w paths none (.Ready true) (some ev) = (.ok .NotReady, paths) := by
  obtain ⟨pth, ty⟩ := ev
  cases ht
  unfold Monitor.poll
  dsimp only
  rcases add_device_cases w paths pth with hc | hc
  · rw [hc]
    rfl
  · rw [hc] at hfail
    simp at hfail

/-- A raw `Remove` with no matching connected entry is suppressed by the
OS-level poll: not-ready, table untouched. -/
theorem monitor_poll_suppress_remove (w : World) (paths : Paths) (ev : RawEvent)
    (ht : ev.type = RawType.remove)
    (hfail : (Context.remove_device_by_path paths ev.path).1 = none) :
    Monitor.poll w paths none (.Ready true) (some ev) = (.ok .NotReady, paths) := by
  obtain ⟨pth, ty⟩ := ev
  cases ht
  unfold Monitor.poll
  dsimp only
  rcases remove_device_cases paths pth with hc | ⟨i, hc⟩
  · rw [hc]
    rfl
  · rw [hc] at hfail
    simp at hfail

/-- Raw `Change` and `Unknown` events are suppressed by the OS-level poll. -/
theorem monitor_poll_suppress_other (w : World) (paths : Paths) (ev : RawEvent)
    (ht : ev.type = RawType.change ∨ ev.type = RawType.unknown) :
    Monitor.poll w paths none (.Ready true) (some ev) = (.ok .NotReady, paths) := by
  obtain ⟨pth, ty⟩ := ev
  rcases ht with ht | ht <;> cases ht <;> rfl

/-- Claim C8: the public hotplug stream never yields an event for a
suppressed raw event — a raw `Add` rejected by `add_device`, a raw `Remove`
with no matching connected entry, and every `Change` or `Unknown` raw event
each make the poll return not-ready with the whole facade state unchanged
(no event, no identifier issued, no error), never end-of-stream. -/
theorem hotplug_suppression (w : World) (st : FacadeContext) (ev : RawEvent) :
    (ev.type = RawType.add → (Context.add_device w st.paths ev.path).1 = none →
      HotplugMonitor.poll w st none (.Ready true) (some ev) = (.ok .NotReady, st)) ∧
    (ev.type = RawType.remove →
      (Context.remove_device_by_path st.paths ev.path).1 = none →
      HotplugMonitor.poll w st none (.Ready true) (some ev) = (.ok .NotReady, st)) ∧
    ((ev.type = RawType.change ∨ ev.type = RawType.unknown) →
      HotplugMonitor.poll w st none (.Ready true) (some ev) = (.ok .NotReady, st)) := by
  refine ⟨?_, ?_, ?_⟩
  · intro ht hfail
    unfold HotplugMonitor.poll
    rw [monitor_poll_suppress_add w st.paths ev ht hfail]
  · intro ht hfail
    unfold HotplugMonitor.poll
    rw [monitor_poll_suppress_remove w st.paths ev ht hfail]
  · intro ht
    unfold HotplugMonitor.poll
    rw [monitor_poll_suppress_other w st.paths ev ht]

/-- Closed instance of `hotplug_suppression`: a raw `Change` event leaves
the facade poll not-ready with the state unchanged. -/
theorem hotplug_suppression_witness :
    HotplugMonitor.poll w1 { paths := [], metadata := [] } none (.Ready true)
      (some { path := "q", type := RawType.change }) =
      (.ok .NotReady, { paths := [], metadata := [] }) :=
  (hotplug_suppression w1 { paths := [], metadata := [] }
    { path := "q", type := RawType.change }).2.2 (Or.inl rfl)

/-- One-step unfolding of the hex walk through `attrs` and `parent`. -/
theorem walk_hex_unfold (d : Device) (name : String) :
    udev_attribute_walk_hex d name =
      match attrFind d.attrs name with
      | some a => (a.2.bind (fun v => v)).bind u16_from_str_radix16
      | none =>
        match d.parent with
        | some p => udev_attribute_walk_hex p name
        | none => none := by
  cases d <;> rfl

/-- Claim C9: a device whose own `idVendor` attribute holds the hex string
`1d6b` in any letter case resolves through the hex walk to
`0x1d6b = 7531`; a value that is not valid hex text or not valid UTF-8
resolves to `none`, the same outcome as an absent attribute — the
resolver's result type is an `Option`, so no distinct error can occur.
The last conjunct pins the parser down on concrete malformed values: for
the unsigned `u16` target a `-`-prefixed string such as `-0` is rejected
(the core parser strips a sign only for signed targets), as are non-hex
text and the empty string. -/
theorem vendor_hex_roundtrip (d : Device) (s : String) :
    (attrFind d.attrs "idVendor" = some ("idVendor", some (some s)) →
      (s = "1d6b" ∨ s = "1D6b" ∨ s = "1d6B" ∨ s = "1D6B") →
      udev_attribute_walk_hex d "idVendor" = some 7531) ∧
    (attrFind d.attrs "idVendor" = some ("idVendor", some (some s)) →
      u16_from_str_radix16 s = none →
      udev_attribute_walk_hex d "idVendor" = none) ∧
    (attrFind d.attrs "idVendor" = some ("idVendor", some none) →
      udev_attribute_walk_hex d "idVendor" = none) ∧
    (attrFind d.attrs "idVendor" = none → d.parent = none →
      udev_attribute_walk_hex d "idVendor" = none) ∧
    (u16_from_str_radix16 "-0" = none ∧ u16_from_str_radix16 "zzzz" = none ∧
      u16_from_str_radix16 "" = none ∧ u16_from_str_radix16 "1d6b" = some 7531 ∧
      udev_attribute_walk_hex
        (Device.leaf [("idVendor", some (some "-0"))]) "idVendor" = none) := by
  refine ⟨?_, ?_, ?_, ?_, by decide⟩
  · intro hf hs
    rw [walk_hex_unfold, hf]
    rcases hs with rfl | rfl | rfl | rfl <;> dsimp only <;> decide
  · intro hf hparse
    rw [walk_hex_unfold, hf]
    show ((some (some s)).bind (fun v => v)).bind u16_from_str_radix16 = none
    simp [hparse]
  · intro hf
    rw [walk_hex_unfold, hf]
    rfl
  · intro hf hpar
    rw [walk_hex_unfold, hf, hpar]

/-- Closed instance of `vendor_hex_roundtrip`: the concrete hub device with
`idVendor = "1d6b"` resolves to 7531. -/
theorem vendor_hex_roundtrip_witness :
    udev_attribute_walk_hex devHub "idVendor" = some 7531 :=
  (vendor_hex_roundtrip devHub "1d6b").1 (by decide) (Or.inl rfl)

/-- A hex lookup never changes the table length. -/
theorem udev_lookup_hex_length (w : World) (paths : Paths) (i : Nat)
    (attr : String) :
    (Context.udev_lookup_hex w paths i attr).2.length = paths.length := by
  rcases udev_lookup_hex_state w paths i attr with h | ⟨_, _, _, h⟩
  · rw [h]
  · rw [h, List.length_set]

/-- The facade `add` keeps the table length and pushes exactly one
metadata entry. -/
theorem facade_add_lengths (w : World) (st : FacadeContext) (i : Nat) :
    (FacadeContext.add w st i).paths.length = st.paths.length ∧
    (FacadeContext.add w st i).metadata.length = st.metadata.length + 1 := by
  unfold FacadeContext.add Context.vendor_id Context.product_id
  constructor
  · dsimp only
    rw [udev_lookup_hex_length, udev_lookup_hex_length]
  · simp

/-- Folding the facade `add` over a list of identifiers keeps the table
length and pushes one metadata entry per identifier. -/
theorem facade_add_fold (w : World) (l : List Nat) (st : FacadeContext) :
    ((l.foldl (fun st i => FacadeContext.add w st i) st).paths.length =
      st.paths.length) ∧
    ((l.foldl (fun st i => FacadeContext.add w st i) st).metadata.length =
      st.metadata.length + l.length) := by
  induction l generalizing st with
  | nil => simp
  | cons x xs ih =>
    simp only [List.foldl_cons, List.length_cons]
    obtain ⟨h1, h2⟩ := ih (FacadeContext.add w st x)
    obtain ⟨g1, g2⟩ := facade_add_lengths w st x
    constructor
    · rw [h1, g1]
    · rw [h2, g2]
      omega

/-- Shape of one OS-level poll step: either it yields an `Add` and appends
exactly one table entry, or it leaves the table length unchanged and yields
anything but an `Add`. -/
theorem monitor_poll_shape (w : World) (paths : Paths) (regErr : Option Nat)
    (readiness : Async Bool) (ev : Option RawEvent) :
    (∃ i pth, Monitor.poll w paths regErr readiness ev =
      (.ok (.Ready (some (.Add i))), paths ++ [some pth])) ∨
    ((Monitor.poll w paths regErr readiness ev).2.length = paths.length ∧
      ∀ i, (Monitor.poll w paths regErr readiness ev).1 ≠
        .ok (.Ready (some (.Add i)))) := by
  unfold Monitor.poll
  cases regErr with
  | some k => exact Or.inr ⟨rfl, fun i => by simp⟩
  | none =>
    cases readiness with
    | NotReady => exact Or.inr ⟨rfl, fun i => by simp⟩
    | Ready readable =>
      cases readable with
      | false => exact Or.inr ⟨rfl, fun i => by simp⟩
      | true =>
        cases ev with
        | none => exact Or.inr ⟨rfl, fun i => by simp⟩
        | some ev =>
          obtain ⟨pth, ty⟩ := ev
          cases ty with
          | add =>
            dsimp only
            rcases add_device_cases w paths pth with hc | hc <;> rw [hc]
            · exact Or.inr ⟨rfl, fun i => by simp⟩
            · exact Or.inl ⟨paths.length % 4294967296, pth, rfl⟩
          | remove =>
            dsimp only
            rcases remove_device_cases paths pth with hc | ⟨j, hc⟩ <;> rw [hc]
            · exact Or.inr ⟨rfl, fun i => by simp⟩
            · exact Or.inr ⟨by simp [List.length_set], fun i => by simp⟩
          | change => exact Or.inr ⟨rfl, fun i => by simp⟩
          | unknown => exact Or.inr ⟨rfl, fun i => by simp⟩

/-- Claim C10: the facade's metadata vector has exactly the length of the
OS-level path table — `Context::new` establishes the equality and every
`HotplugMonitor::poll` step preserves it (one metadata push per table
append) — so the cached-metadata lookup is in bounds for every identifier
issued through the public API. -/
theorem facade_metadata_length (w : World) (scan : List String)
    (st : FacadeContext) (regErr : Option Nat) (readiness : Async Bool)
    (ev : Option RawEvent) :
    ((FacadeContext.new w scan).metadata.length =
      (FacadeContext.new w scan).paths.length) ∧
    (st.metadata.length = st.paths.length →
      (HotplugMonitor.poll w st regErr readiness ev).2.metadata.length =
        (HotplugMonitor.poll w st regErr readiness ev).2.paths.length) := by
  constructor
  · unfold FacadeContext.new
    obtain ⟨h1, h2⟩ := facade_add_fold w (Context.devices (osContextNew w scan))
      { paths := osContextNew w scan, metadata := [] }
    rw [h1, h2]
    dsimp only
    unfold Context.devices
    rw [List.length_map, List.length_range]
    simp
  · intro hinv
    unfold HotplugMonitor.poll
    rcases monitor_poll_shape w st.paths regErr readiness ev with ⟨i, pth, hm⟩ | ⟨hlen, hne⟩
    · rw [hm]
      dsimp only [FEvent.tryFrom]
      obtain ⟨g1, g2⟩ :=
        facade_add_lengths w { st with paths := st.paths ++ [some pth] } i
      rw [g1, g2]
      dsimp only
      rw [List.length_append]
      simp [hinv]
    · obtain ⟨r, ps, hm⟩ : ∃ r ps,
          Monitor.poll w st.paths regErr readiness ev = (r, ps) := ⟨_, _, rfl⟩
      rw [hm] at hlen hne ⊢
      dsimp only at hlen
      cases r with
      | error e =>
        dsimp only
        omega
      | ok a =>
        cases a with
        | NotReady =>
          dsimp only
          omega
        | Ready v =>
          cases v with
          | none =>
            dsimp only
            omega
          | some osEv =>
            cases osEv with
            | Add i => exact absurd rfl (hne i)
            | Remove i =>
              dsimp only [FEvent.tryFrom]
              omega
            | Change i =>
              dsimp only [FEvent.tryFrom]
              omega
            | Unknown =>
              dsimp only [FEvent.tryFrom]
              omega

/-- Closed instance of `facade_metadata_length`: a not-ready poll on the
empty facade state preserves the length equality. -/
theorem facade_metadata_length_witness :
    (HotplugMonitor.poll w1 { paths := [], metadata := [] } none Async.NotReady
      none).2.metadata.length =
    (HotplugMonitor.poll w1 { paths := [], metadata := [] } none Async.NotReady
      none).2.paths.length :=
  (facade_metadata_length w1 [] { paths := [], metadata := [] } none
    .NotReady none).2 rfl
